import Mathlib

/-!
Shallow embedding of `ctisim/image.py` (classes `ImageSimulator` and
`SegmentSimulator`) for verification of the natural-language specification.

Modelling conventions:
* NumPy 2-D float arrays are embedded as total functions `ℕ → ℕ → ℝ`
  (row, column), zero outside the array's window; machine floats are
  idealised as real numbers.
* `np.random.normal(loc, scale, size)` is embedded as
  `loc + scale * ω r c`, where `ω : ℕ → ℕ → ℝ` is the underlying
  standard-normal draw, supplied explicitly.  `np.random.poisson` and
  `np.random.randint` draws are likewise threaded in as explicit data.
* Python exceptions are embedded with `Except String`.
* Methods that could assign to `self` are embedded in state-passing
  style; `SegmentSimulator.simulate_readout` returns the pair
  (result, post-state).
-/

namespace Ctisim

/-- Elementwise semantics of `np.clip(x, lo, hi)`: first the lower bound is
applied, then the upper bound (so `hi` wins when `hi < lo`). -/
noncomputable def npClip (x lo hi : ℝ) : ℝ := min (max x lo) hi

/-- A serial trap, as used by `SegmentSimulator` (attributes read in
`image.py`: `pixel`, `size`, `scaling`, `emission_time`, `threshold`;
the class itself lives in `ctisim.core`, outside the inspected sources). -/
structure SerialTrap where
  size : ℝ
  scaling : ℝ
  emission_time : ℝ
  pixel : ℕ
  threshold : ℝ

/-- The output amplifier, as used by `SegmentSimulator` (attributes read in
`image.py`: `gain`, `noise`, `offset`, and the method `offset_drift`;
the class itself lives in `ctisim.core`, outside the inspected sources).
`offset_drift` maps the previous per-row drift vector and the row vector of
charge transferred this step to the new per-row drift vector; its exact
update rule is external, so it is kept abstract as a function field. -/
structure OutputAmplifier where
  gain : ℝ
  noise : ℝ
  offset : ℝ
  offset_drift : (ℕ → ℝ) → (ℕ → ℝ) → (ℕ → ℝ)

/-- The four per-pixel trap parameter arrays produced by
`SegmentSimulator.make_trap_arrays`. -/
structure TrapArrays where
  size : ℕ → ℕ → ℝ
  scaling : ℕ → ℕ → ℝ
  threshold : ℕ → ℕ → ℝ
  emission_time : ℕ → ℕ → ℝ

/-- The attributes of `SegmentSimulator` assigned in `__init__`
(`prescan_width`, `ny`, `nx`, `segarr`, `output_amplifier`, `cti`,
`serial_traps`, `do_trapping`).  `serial_traps` is `none` for Python
`None` and `some ts` for a Python list, mirroring the two-valued
attribute. -/
structure SegmentSimulator where
  prescan_width : ℕ
  ny : ℕ
  nx : ℕ
  segarr : ℕ → ℕ → ℝ
  output_amplifier : OutputAmplifier
  cti : ℝ
  serial_traps : Option (List SerialTrap)
  do_trapping : Bool

/-- Attribute names assigned on `self` in `SegmentSimulator.__init__`;
used to embed Python attribute lookup (a name outside this list raises
`AttributeError`). -/
def segmentAttrs : List String :=
  ["prescan_width", "ny", "nx", "segarr", "output_amplifier", "cti",
   "serial_traps", "do_trapping"]

/-- `SegmentSimulator.add_trap`: `self.serial_traps.append(serial_trap)`
inside `try`; when `serial_traps` is `None` the append raises
`AttributeError`, caught by the `except` branch which sets
`serial_traps = [serial_trap]` and `do_trapping = True`.  No other
exception can escape, so the body always returns normally. -/
def SegmentSimulator.add_trap (s : SegmentSimulator) (t : SerialTrap) :
    Except String SegmentSimulator :=
  match s.serial_traps with
  | some ts => Except.ok { s with serial_traps := some (ts ++ [t]) }
  | none => Except.ok { s with serial_traps := some [t], do_trapping := true }

/-- State-valued wrapper around `add_trap` (which never errors), used when
folding a trap list in `__init__`. -/
def addTrapState (s : SegmentSimulator) (t : SerialTrap) : SegmentSimulator :=
  match s.add_trap t with
  | Except.ok s2 => s2
  | Except.error _ => s

/-- `SegmentSimulator.__init__`: `segarr` is a zero array of shape
`(ny, nx + prescan_width)` whose columns from `prescan_width` on are set
to `imarr`; `serial_traps` starts as `None` and `do_trapping` as `False`,
then each supplied trap is registered through `add_trap`. -/
noncomputable def SegmentSimulator.init (ny nx : ℕ) (imarr : ℕ → ℕ → ℝ)
    (pw : ℕ) (oa : OutputAmplifier) (cti : ℝ)
    (traps : Option (List SerialTrap)) : SegmentSimulator :=
  let base : SegmentSimulator :=
    { prescan_width := pw, ny := ny, nx := nx,
      segarr := fun r c =>
        if r < ny ∧ pw ≤ c ∧ c < nx + pw then imarr r (c - pw) else 0,
      output_amplifier := oa, cti := cti,
      serial_traps := none, do_trapping := false }
  match traps with
  | none => base
  | some ts => ts.foldl addTrapState base

/-- `SegmentSimulator.reset`: the body executes
`self.array[:, self.prescan_width:] = 0.0`, but `__init__` assigns the
charge field to the attribute `segarr`, never `array`, so the attribute
lookup of `array` raises `AttributeError`. -/
noncomputable def SegmentSimulator.reset (s : SegmentSimulator) :
    Except String SegmentSimulator :=
  if "array" ∈ segmentAttrs then
    Except.ok { s with segarr := fun r c =>
      if s.prescan_width ≤ c then 0 else s.segarr r c }
  else
    Except.error "AttributeError: SegmentSimulator object has no attribute array"

/-- All-zero trap parameter arrays (`np.zeros((ny, nx + prescan_width))`
four times). -/
noncomputable def trapZero : TrapArrays :=
  { size := fun _ _ => 0, scaling := fun _ _ => 0,
    threshold := fun _ _ => 0, emission_time := fun _ _ => 0 }

/-- One iteration of the `make_trap_arrays` loop body after the checks:
write the trap's parameters into column `t.pixel` of each array. -/
noncomputable def trapWrite (a : TrapArrays) (t : SerialTrap) : TrapArrays :=
  { size := fun r c => if c = t.pixel then t.size else a.size r c,
    scaling := fun r c => if c = t.pixel then t.scaling else a.scaling r c,
    threshold := fun r c => if c = t.pixel then t.threshold else a.threshold r c,
    emission_time := fun r c =>
      if c = t.pixel then t.emission_time else a.emission_time r c }

/-- The `for trap in self.serial_traps` loop of `make_trap_arrays`, with
`occ` the accumulated `pixel_occupation` list and `w = nx + prescan_width`
the array width.  A duplicate column raises `ValueError`, a column with
`w < pixel` raises `ValueError` (the source's check is
`loc > self.nx + self.prescan_width`), and a column equal to `w` passes
that check but the NumPy column assignment `scaling[:, loc] = ...` is then
out of bounds and raises `IndexError`. -/
noncomputable def trapLoop (w : ℕ) :
    List SerialTrap → List ℕ → TrapArrays → Except String TrapArrays
  | [], _, a => Except.ok a
  | t :: rest, occ, a =>
      if t.pixel ∈ occ then
        Except.error "ValueError: Only one trap allowed per pixel"
      else if w < t.pixel then
        Except.error "ValueError: Trap location outside of serial register"
      else if t.pixel = w then
        Except.error "IndexError: column index out of bounds"
      else
        trapLoop w rest (occ ++ [t.pixel]) (trapWrite a t)

/-- `SegmentSimulator.make_trap_arrays`: with `serial_traps = None` it
warns and returns the zero arrays; otherwise it runs the registration
loop from empty occupation over zero arrays. -/
noncomputable def SegmentSimulator.make_trap_arrays (s : SegmentSimulator) :
    Except String TrapArrays :=
  match s.serial_traps with
  | none => Except.ok trapZero
  | some ts => trapLoop (s.nx + s.prescan_width) ts [] trapZero

/-- The mutable state carried through the serial-transfer loop of
`simulate_readout`: the output `image`, the `free_charge` and
`trapped_charge` arrays, and the per-row `drift` vector. -/
structure ROState where
  image : ℕ → ℕ → ℝ
  free : ℕ → ℕ → ℝ
  trapped : ℕ → ℕ → ℝ
  drift : ℕ → ℝ

/-- `captured_charge = np.clip((free_charge - threshold) * scaling,
trapped_charge, size) - trapped_charge`, elementwise. -/
noncomputable def capturedCharge (ta : TrapArrays) (free trapped : ℕ → ℕ → ℝ) :
    ℕ → ℕ → ℝ :=
  fun r c =>
    npClip ((free r c - ta.threshold r c) * ta.scaling r c)
      (trapped r c) (ta.size r c) - trapped r c

/-- The trap-capture sub-step: `trapped_charge += captured_charge;
free_charge -= captured_charge`. -/
noncomputable def captureStep (ta : TrapArrays) (st : ROState) : ROState :=
  { st with
    trapped := fun r c => st.trapped r c + capturedCharge ta st.free st.trapped r c,
    free := fun r c => st.free r c - capturedCharge ta st.free st.trapped r c }

/-- The proportional-loss, readout-recording and shift sub-step of the
loop, at loop index `i`, with `w = nx + prescan_width` the width of
`free_charge` and `ny` the number of image rows (`iy - parallel_overscan`):
`transferred_charge = free_charge * cte` and
`deferred_charge = free_charge * cti` over the whole array; with bias
drift the drift vector is first updated from column 0 of the transferred
charge and added to the recorded value; the recorded value is written
into output column `i` for rows below `ny`; finally
`free_charge = np.pad(transferred_charge, ((0,0),(0,1)))[:, 1:] +
deferred_charge`. -/
noncomputable def transferStep (cti : ℝ) (w ny : ℕ) (oa : OutputAmplifier)
    (dbd : Bool) (i : ℕ) (st : ROState) : ROState :=
  let transferred : ℕ → ℕ → ℝ := fun r c => st.free r c * (1 - cti)
  let deferred : ℕ → ℕ → ℝ := fun r c => st.free r c * cti
  let drift2 : ℕ → ℝ :=
    if dbd then oa.offset_drift st.drift (fun r => transferred r 0) else st.drift
  { image := fun r c =>
      if r < ny ∧ c = i then
        st.image r c + transferred r 0 + (if dbd then drift2 r else 0)
      else st.image r c,
    free := fun r c =>
      (if c + 1 < w then transferred r (c + 1) else 0) + deferred r c,
    trapped := st.trapped,
    drift := drift2 }

/-- The trap-emission sub-step:
`released_charge = trapped_charge * (1 - np.exp(-1 / emission_time));
trapped_charge -= released_charge; free_charge += released_charge`.
At columns with no trap the stored `emission_time` is `0`; NumPy there
evaluates the factor to `1` (via `exp(-inf) = 0`) while Lean's `x / 0 = 0`
gives factor `0`, but `trapped_charge` is identically `0` at such columns,
so the released charge is `0` either way. -/
noncomputable def releaseStep (ta : TrapArrays) (st : ROState) : ROState :=
  { st with
    trapped := fun r c =>
      st.trapped r c - st.trapped r c * (1 - Real.exp (-1 / ta.emission_time r c)),
    free := fun r c =>
      st.free r c + st.trapped r c * (1 - Real.exp (-1 / ta.emission_time r c)) }

/-- One full iteration of the serial-transfer loop at index `i`: capture
(when trapping is enabled), proportional loss with transfer and
recording, then emission (when trapping is enabled). -/
noncomputable def readoutStep (ta : Option TrapArrays) (cti : ℝ) (w ny : ℕ)
    (oa : OutputAmplifier) (dbd : Bool) (i : ℕ) (st : ROState) : ROState :=
  match ta with
  | none => transferStep cti w ny oa dbd i st
  | some t => releaseStep t (transferStep cti w ny oa dbd i (captureStep t st))

/-- Iterating the loop body for indices `0, 1, ..., k-1` (the source's
`for i in range(ix)`). -/
noncomputable def readoutLoop (ta : Option TrapArrays) (cti : ℝ) (w ny : ℕ)
    (oa : OutputAmplifier) (dbd : Bool) : ℕ → ROState → ROState
  | 0, st => st
  | k + 1, st => readoutStep ta cti w ny oa dbd k (readoutLoop ta cti w ny oa dbd k st)

/-- The initial output array, `np.random.normal(loc=offset, scale=noise,
size=(iy, ix))`, embedded as `offset + noise * ω` inside the `(iy, ix)`
window. -/
noncomputable def initImage (oa : OutputAmplifier) (iy ix : ℕ)
    (ω : ℕ → ℕ → ℝ) : ℕ → ℕ → ℝ :=
  fun r c => if r < iy ∧ c < ix then oa.offset + oa.noise * ω r c else 0

/-- The value computed by `simulate_readout` once the trap arrays (or
their absence) are known: run the loop `ix = nx + prescan_width +
serial_overscan_width` times from the freshly drawn output array, the
deep copy of `segarr`, zero trapped charge and zero drift, then divide
the final output array by the amplifier gain. -/
noncomputable def readoutResult (s : SegmentSimulator) (so po : ℕ)
    (dbd : Bool) (ta : Option TrapArrays) (ω : ℕ → ℕ → ℝ) : ℕ → ℕ → ℝ :=
  fun r c =>
    (readoutLoop ta s.cti (s.nx + s.prescan_width) s.ny s.output_amplifier dbd
        (s.nx + s.prescan_width + so)
        { image := initImage s.output_amplifier (s.ny + po)
            (s.nx + s.prescan_width + so) ω,
          free := s.segarr, trapped := fun _ _ => 0,
          drift := fun _ => 0 }).image r c / s.output_amplifier.gain

/-- `SegmentSimulator.simulate_readout`.  The method assigns to no
attribute of `self` (it works on `copy.deepcopy(self.segarr)` and fresh
local arrays), so the post-state component is the input state.  With
trapping enabled the trap arrays are built first and any `ValueError`
or `IndexError` from `make_trap_arrays` propagates. -/
noncomputable def SegmentSimulator.simulate_readout (s : SegmentSimulator)
    (so po : ℕ) (dbd : Bool) (ω : ℕ → ℕ → ℝ) :
    Except String (ℕ → ℕ → ℝ) × SegmentSimulator :=
  (match (if s.do_trapping then Except.map some s.make_trap_arrays
          else Except.ok none) with
   | Except.error e => Except.error e
   | Except.ok ta => Except.ok (readoutResult s so po dbd ta ω), s)

/-- `np.random.randint(low, high)`: a uniform integer from `[low, high)`,
embedded as `low` plus the supplied draw reduced modulo the range width. -/
def randint (lo hi ω : ℕ) : ℕ := lo + ω % (hi - lo)

/-- `SegmentSimulator.flatfield_exp`: adds a flat (or Poisson-drawn, when
`noise` is set; the draw `ωp` stands for
`np.random.poisson(signal, size=(ny, nx))`) signal to the image-region
columns `prescan_width ≤ c < prescan_width + nx` of `segarr`. -/
noncomputable def SegmentSimulator.flatfield_exp (s : SegmentSimulator)
    (signal : ℝ) (noise : Bool) (ωp : ℕ → ℕ → ℝ) : SegmentSimulator :=
  let flat : ℕ → ℕ → ℝ := fun r c => if noise then ωp r c else signal
  { s with segarr := fun r c =>
      s.segarr r c +
        (if r < s.ny ∧ s.prescan_width ≤ c ∧ c < s.prescan_width + s.nx then
          flat r (c - s.prescan_width)
        else 0) }

/-- `SegmentSimulator.ramp_exp`: raises `ValueError` when the signal list
length differs from `ny`; otherwise adds `signal_list[r]` to every
image-region column of row `r` (the `np.tile(..).T` ramp). -/
noncomputable def SegmentSimulator.ramp_exp (s : SegmentSimulator)
    (signal_list : List ℝ) : Except String SegmentSimulator :=
  if signal_list.length ≠ s.ny then Except.error "ValueError"
  else
    let ramparr : ℕ → ℕ → ℝ := fun r c =>
      s.segarr r c +
        (if r < s.ny ∧ s.prescan_width ≤ c ∧ c < s.prescan_width + s.nx then
          signal_list.getD r 0
        else 0)
    Except.ok { s with segarr := ramparr }

/-- One Fe55 hit: the externally rendered stamp (with its shape) together
with the two `np.random.randint` draws that position it. -/
structure Fe55Hit where
  stamp : ℕ → ℕ → ℝ
  sy : ℕ
  sx : ℕ
  ωy : ℕ
  ωx : ℕ

/-- One iteration of the `fe55_exp` loop: draw
`y0 = np.random.randint(0, ny - sy)` and
`x0 = np.random.randint(prescan_width, nx + prescan_width - sx)` and add
the stamp into the `sy × sx` block at `(y0, x0)`. -/
noncomputable def SegmentSimulator.fe55_hit (s : SegmentSimulator)
    (h : Fe55Hit) : SegmentSimulator :=
  let y0 := randint 0 (s.ny - h.sy) h.ωy
  let x0 := randint s.prescan_width (s.nx + s.prescan_width - h.sx) h.ωx
  { s with segarr := fun r c =>
      s.segarr r c +
        (if y0 ≤ r ∧ r < y0 + h.sy ∧ x0 ≤ c ∧ c < x0 + h.sx then
          h.stamp (r - y0) (c - x0)
        else 0) }

/-- `SegmentSimulator.fe55_exp`: the `for i in range(num_fe55_hits)` loop,
one stamp per supplied hit record. -/
noncomputable def SegmentSimulator.fe55_exp (s : SegmentSimulator)
    (hits : List Fe55Hit) : SegmentSimulator :=
  hits.foldl SegmentSimulator.fe55_hit s

/-- An exposure-construction call on a segment, with all random draws it
consumes supplied as data. -/
inductive ExposureOp where
  | flat (signal : ℝ) (noise : Bool) (ωp : ℕ → ℕ → ℝ)
  | ramp (signal_list : List ℝ)
  | fe55 (hits : List Fe55Hit)

/-- Applying one exposure call to a segment state.  A `ramp_exp` whose
length check fails raises before mutating, leaving the state unchanged. -/
noncomputable def applyOp (s : SegmentSimulator) : ExposureOp → SegmentSimulator
  | ExposureOp.flat sig n ωp => s.flatfield_exp sig n ωp
  | ExposureOp.ramp l =>
      match s.ramp_exp l with
      | Except.ok s2 => s2
      | Except.error _ => s
  | ExposureOp.fe55 hs => s.fe55_exp hs

/-- A sequence of exposure calls applied in order. -/
noncomputable def applyOps (s : SegmentSimulator) (ops : List ExposureOp) :
    SegmentSimulator :=
  ops.foldl applyOp s

/-- `ImageSimulator`: sensor geometry plus the sixteen segments (indexed
by amplifier number 1–16; the function domain beyond 1–16 is unused). -/
structure ImageSimulator where
  ny : ℕ
  nx : ℕ
  prescan_width : ℕ
  serial_overscan_width : ℕ
  parallel_overscan_width : ℕ
  segments : ℕ → SegmentSimulator

/-- Top-level names bound in the module `ctisim/image.py` (its `import`
statements and class definitions); used to embed Python name resolution.
Note `multiprocessing` is imported unaliased, so the name `mp` is not
bound. -/
def moduleNames : List String :=
  ["os", "galsim", "warnings", "copy", "np", "multiprocessing", "fits",
   "time", "OutputAmplifier", "SerialTrap", "MaskedCCD", "ImageSimulator",
   "SegmentSimulator"]

/-- `ImageSimulator.segment_readout`: run one segment's readout with the
sensor-level overscan widths and store the result under the amplifier
key (the dictionary write is returned as the result here). -/
noncomputable def ImageSimulator.segment_readout (im : ImageSimulator)
    (amp : ℕ) (dbd : Bool) (ω : ℕ → ℕ → ℝ) : Except String (ℕ → ℕ → ℝ) :=
  ((im.segments amp).simulate_readout im.serial_overscan_width
      im.parallel_overscan_width dbd ω).1

/-- The sequential `for amp in range(1, 17)` readout loop, building the
`segarr_dict`, for amplifier numbers `1..k`; a raised exception in any
segment aborts the loop. -/
noncomputable def seqReadout (im : ImageSimulator) (dbd : Bool)
    (ω : ℕ → ℕ → ℕ → ℝ) : ℕ → Except String (ℕ → Option (ℕ → ℕ → ℝ))
  | 0 => Except.ok fun _ => none
  | k + 1 =>
      match seqReadout im dbd ω k with
      | Except.error e => Except.error e
      | Except.ok d =>
          match im.segment_readout (k + 1) dbd (ω (k + 1)) with
          | Except.error e => Except.error e
          | Except.ok a => Except.ok fun j => if j = k + 1 then some a else d j

/-- `ImageSimulator.simulate_readout` (FITS template reading and output
writing elided as external I/O; the Python return value is
`segarr_dict`).  The `use_multiprocessing` branch begins with
`manager = mp.Manager()`: the name `mp` is not bound in the module
namespace (`multiprocessing` is imported without an alias), so this
raises `NameError` before any worker starts.  Were the name bound, the
sixteen workers write disjoint keys of the managed dictionary and the
join barrier makes the result equal to the sequential fold. -/
noncomputable def ImageSimulator.simulate_readout (im : ImageSimulator)
    (use_multiprocessing dbd : Bool) (ω : ℕ → ℕ → ℕ → ℝ) :
    Except String (ℕ → Option (ℕ → ℕ → ℝ)) :=
  if use_multiprocessing then
    if "mp" ∈ moduleNames then seqReadout im dbd ω 16
    else Except.error "NameError: name mp is not defined"
  else seqReadout im dbd ω 16

/-! ## Concrete instances used by counterexamples and witnesses -/

/-- A unit-gain, noiseless, offset-free amplifier with identity drift. -/
noncomputable def exOa : OutputAmplifier :=
  { gain := 1, noise := 0, offset := 0, offset_drift := fun d _ => d }

/-- A concrete free-charge array: row-independent, 2 in column 0 and 4 in
column 1. -/
noncomputable def exFree : ℕ → ℕ → ℝ :=
  fun _ c => if c = 0 then 2 else if c = 1 then 4 else 0

/-- A concrete loop state holding `exFree` with clean output, traps and
drift. -/
noncomputable def exSt : ROState :=
  { image := fun _ _ => 0, free := exFree, trapped := fun _ _ => 0,
    drift := fun _ => 0 }

/-- A concrete serial trap at column 2. -/
noncomputable def exTrap : SerialTrap :=
  { size := 10, scaling := 1/10, emission_time := 1, pixel := 2, threshold := 0 }

/-- A concrete segment that already holds one trap at column 2. -/
noncomputable def exSegTrap : SegmentSimulator :=
  { prescan_width := 1, ny := 2, nx := 4, segarr := fun _ _ => 0,
    output_amplifier := exOa, cti := 0, serial_traps := some [exTrap],
    do_trapping := true }

/-- A concrete segment holding two traps registered at the same column 2. -/
noncomputable def exSegDup : SegmentSimulator :=
  { prescan_width := 1, ny := 2, nx := 4, segarr := fun _ _ => 0,
    output_amplifier := exOa, cti := 0, serial_traps := some [exTrap, exTrap],
    do_trapping := true }

/-! ## Specification-side definitions for refinement comparison -/

/-- Modelled from the spec (claim C1 wording): shift `free_charge` left by
one column with a zero column appended, then add the deferred charge
`free_charge[:,0] * cti` back into column 0 only; no proportional loss on
any other column. -/
noncomputable def specStepFree (cti : ℝ) (w : ℕ) (free : ℕ → ℕ → ℝ) :
    ℕ → ℕ → ℝ :=
  fun r c =>
    (if c + 1 < w then free r (c + 1) else 0) +
      (if c = 0 then free r 0 * cti else 0)

/-! ## Theorems -/

/-- C8 (confirmed): `simulate_readout` assigns to no attribute of the
segment; the post-state keeps `segarr`, `cti`, `prescan_width` and the
trap list of the pre-state, for every state, overscan choice, drift flag
and noise draw. -/
theorem C8_readout_does_not_mutate (s : SegmentSimulator) (so po : ℕ)
    (dbd : Bool) (ω : ℕ → ℕ → ℝ) :
    (s.simulate_readout so po dbd ω).2.segarr = s.segarr ∧
    (s.simulate_readout so po dbd ω).2.cti = s.cti ∧
    (s.simulate_readout so po dbd ω).2.prescan_width = s.prescan_width ∧
    (s.simulate_readout so po dbd ω).2.serial_traps = s.serial_traps :=
  ⟨rfl, rfl, rfl, rfl⟩

/-- C5 (code_bug): `reset` always raises `AttributeError`, for every
segment state, because it reads `self.array` while `__init__` stores the
charge field under `segarr`; it never zeroes the exposure pixels. -/
theorem C5_reset_raises (s : SegmentSimulator) :
    s.reset = Except.error
      "AttributeError: SegmentSimulator object has no attribute array" := rfl

/-- C7 (code_bug): with `use_multiprocessing=True`, `simulate_readout`
raises `NameError` (`manager = mp.Manager()` references the unbound name
`mp`; the module imports `multiprocessing` without that alias), for every
image state, drift flag and noise draws, so the sixteen-array collection
is never produced in that mode. -/
theorem C7_multiprocessing_name_error (im : ImageSimulator) (dbd : Bool)
    (ω : ℕ → ℕ → ℕ → ℝ) :
    im.simulate_readout true dbd ω =
      Except.error "NameError: name mp is not defined" := rfl

/-- C9 (confirmed): with zero amplifier noise standard deviation and bias
drift disabled, the readout result is independent of the Gaussian draw:
two calls on the identical state with different underlying draws return
identical outputs. -/
theorem C9_deterministic_readout (s : SegmentSimulator) (so po : ℕ)
    (ω₁ ω₂ : ℕ → ℕ → ℝ) (hn : s.output_amplifier.noise = 0) :
    (s.simulate_readout so po false ω₁).1 = (s.simulate_readout so po false ω₂).1 := by
  have h : initImage s.output_amplifier (s.ny + po) (s.nx + s.prescan_width + so) ω₁
      = initImage s.output_amplifier (s.ny + po) (s.nx + s.prescan_width + so) ω₂ := by
    funext r c
    simp [initImage, hn]
  have h2 : ∀ ta, readoutResult s so po false ta ω₁ = readoutResult s so po false ta ω₂ := by
    intro ta
    unfold readoutResult
    rw [h]
  simp only [SegmentSimulator.simulate_readout, h2]

/-- C9 witness: the determinism theorem applied to a concrete noiseless
segment and two distinct concrete draws. -/
theorem C9_deterministic_readout_witness :
    (exSegTrap.simulate_readout 3 1 false fun _ _ => 1).1 =
      (exSegTrap.simulate_readout 3 1 false fun _ _ => 37).1 :=
  C9_deterministic_readout exSegTrap 3 1 (fun _ _ => 1) (fun _ _ => 37) rfl

/-- C3 (confirmed): in the trap-capture sub-step the captured amount is
exactly `clip((free - threshold) * scaling, occupancy, capacity) -
occupancy`; occupancy grows by it, free charge shrinks by it, the sum of
free and trapped charge over any register prefix is unchanged, and when
the occupancy is within capacity the captured amount is non-negative. -/
theorem C3_capture_conserves (ta : TrapArrays) (img free trapped : ℕ → ℕ → ℝ)
    (drift : ℕ → ℝ) (r c w : ℕ) (h : trapped r c ≤ ta.size r c) :
    (captureStep ta ⟨img, free, trapped, drift⟩).trapped r c
        = trapped r c + capturedCharge ta free trapped r c ∧
    (captureStep ta ⟨img, free, trapped, drift⟩).free r c
        = free r c - capturedCharge ta free trapped r c ∧
    capturedCharge ta free trapped r c
        = npClip ((free r c - ta.threshold r c) * ta.scaling r c)
            (trapped r c) (ta.size r c) - trapped r c ∧
    0 ≤ capturedCharge ta free trapped r c ∧
    (Finset.range w).sum (fun j =>
        (captureStep ta ⟨img, free, trapped, drift⟩).free r j +
        (captureStep ta ⟨img, free, trapped, drift⟩).trapped r j)
      = (Finset.range w).sum (fun j => free r j + trapped r j) := by
  refine ⟨rfl, rfl, rfl, ?_, ?_⟩
  · have : trapped r c ≤ npClip ((free r c - ta.threshold r c) * ta.scaling r c)
        (trapped r c) (ta.size r c) :=
      le_min (le_max_right _ _) h
    simpa [capturedCharge, sub_nonneg] using this
  · refine Finset.sum_congr rfl (fun j _ => ?_)
    simp [captureStep]

/-- C3 witness: the capture theorem applied at concrete zero trap arrays
and charge state, where the occupancy bound holds by computation. -/
theorem C3_capture_conserves_witness :
    (captureStep trapZero ⟨fun _ _ => 0, exFree, fun _ _ => 0, fun _ => 0⟩).trapped 0 0
        = (fun _ _ => (0:ℝ)) 0 0 + capturedCharge trapZero exFree (fun _ _ => 0) 0 0 ∧
    (captureStep trapZero ⟨fun _ _ => 0, exFree, fun _ _ => 0, fun _ => 0⟩).free 0 0
        = exFree 0 0 - capturedCharge trapZero exFree (fun _ _ => 0) 0 0 ∧
    capturedCharge trapZero exFree (fun _ _ => 0) 0 0
        = npClip ((exFree 0 0 - trapZero.threshold 0 0) * trapZero.scaling 0 0)
            ((fun _ _ => (0:ℝ)) 0 0) (trapZero.size 0 0) - (fun _ _ => (0:ℝ)) 0 0 ∧
    0 ≤ capturedCharge trapZero exFree (fun _ _ => 0) 0 0 ∧
    (Finset.range 2).sum (fun j =>
        (captureStep trapZero ⟨fun _ _ => 0, exFree, fun _ _ => 0, fun _ => 0⟩).free 0 j +
        (captureStep trapZero ⟨fun _ _ => 0, exFree, fun _ _ => 0, fun _ => 0⟩).trapped 0 j)
      = (Finset.range 2).sum (fun j => exFree 0 j + (fun _ _ => (0:ℝ)) 0 j) :=
  C3_capture_conserves trapZero (fun _ _ => 0) exFree (fun _ _ => 0)
    (fun _ => 0) 0 0 2 (by simp [trapZero])

/-- C1 counterexample: at a concrete two-column state with cti = 1/2, the
free charge after one code transfer step differs at column 0 from the
claimed update (shift left, deferred charge added at column 0 only): the
code yields 3 where the claim yields 5. -/
theorem C1_claim_false :
    (readoutStep none ((1:ℝ)/2) 2 1 exOa false 0 exSt).free 0 0
      ≠ specStepFree ((1:ℝ)/2) 2 exFree 0 0 := by
  norm_num [readoutStep, transferStep, specStepFree, exSt, exFree]

/-- C1 (corrected): every serial transfer step applies the proportional
split to the whole array: the new free charge at column `c` is
`free[c+1] * cte` (zero past the register) plus `free[c] * cti`, i.e.
deferred charge reappears at every column, not only column 0, and all
columns suffer the proportional loss; the value recorded into output
column `k` (drift disabled) is `free[0] * cte`. -/
theorem C1_transfer_rule (cti : ℝ) (w ny : ℕ) (oa : OutputAmplifier)
    (st0 : ROState) (k r c : ℕ) (hr : r < ny) :
    (readoutLoop none cti w ny oa false (k + 1) st0).free r c
      = (if c + 1 < w then
          (readoutLoop none cti w ny oa false k st0).free r (c + 1) * (1 - cti)
        else 0)
        + (readoutLoop none cti w ny oa false k st0).free r c * cti ∧
    (readoutLoop none cti w ny oa false (k + 1) st0).image r k
      = (readoutLoop none cti w ny oa false k st0).image r k
        + (readoutLoop none cti w ny oa false k st0).free r 0 * (1 - cti) := by
  constructor
  · simp [readoutLoop, readoutStep, transferStep]
  · simp [readoutLoop, readoutStep, transferStep, hr]

/-- C1 witness: the transfer rule applied at the concrete state `exSt`
with cti = 1/2, first loop step, row 0, column 0. -/
theorem C1_transfer_rule_witness :
    (readoutLoop none ((1:ℝ)/2) 2 1 exOa false (0 + 1) exSt).free 0 0
      = (if 0 + 1 < 2 then
          (readoutLoop none ((1:ℝ)/2) 2 1 exOa false 0 exSt).free 0 (0 + 1) * (1 - 1/2)
        else 0)
        + (readoutLoop none ((1:ℝ)/2) 2 1 exOa false 0 exSt).free 0 0 * (1/2) ∧
    (readoutLoop none ((1:ℝ)/2) 2 1 exOa false (0 + 1) exSt).image 0 0
      = (readoutLoop none ((1:ℝ)/2) 2 1 exOa false 0 exSt).image 0 0
        + (readoutLoop none ((1:ℝ)/2) 2 1 exOa false 0 exSt).free 0 0 * (1 - 1/2) :=
  C1_transfer_rule ((1:ℝ)/2) 2 1 exOa exSt 0 0 0 (by norm_num)

/-- When every trap of the list either collides with the accumulated
occupation list, or lies at or beyond the register width, or the list
itself repeats a column, the `make_trap_arrays` loop raises. -/
lemma trapLoop_error_of_bad (w : ℕ) (ts : List SerialTrap) :
    ∀ (occ : List ℕ) (a : TrapArrays),
      ((∃ t ∈ ts, t.pixel ∈ occ ∨ w ≤ t.pixel) ∨
        ¬ (ts.map SerialTrap.pixel).Nodup) →
      ∃ e, trapLoop w ts occ a = Except.error e := by
  induction ts with
  | nil =>
    intro occ a h
    rcases h with ⟨t, ht, _⟩ | hnd
    · simp at ht
    · simp at hnd
  | cons t rest ih =>
    intro occ a h
    by_cases h1 : t.pixel ∈ occ
    · exact ⟨"ValueError: Only one trap allowed per pixel", by simp [trapLoop, h1]⟩
    by_cases h2 : w < t.pixel
    · exact ⟨"ValueError: Trap location outside of serial register",
        by simp [trapLoop, h1, h2]⟩
    by_cases h3 : t.pixel = w
    · have h1w : ¬ w ∈ occ := h3 ▸ h1
      exact ⟨"IndexError: column index out of bounds",
        by simp [trapLoop, h1, h2, h3, h1w]⟩
    have hrec : (∃ t2 ∈ rest, t2.pixel ∈ occ ++ [t.pixel] ∨ w ≤ t2.pixel) ∨
        ¬ (rest.map SerialTrap.pixel).Nodup := by
      rcases h with ⟨t2, ht2, hb⟩ | hnd
      · rcases List.mem_cons.mp ht2 with rfl | ht2r
        · rcases hb with hocc | hle
          · exact absurd hocc h1
          · exact absurd hle (by omega)
        · refine Or.inl ⟨t2, ht2r, ?_⟩
          rcases hb with hocc | hle
          · exact Or.inl (List.mem_append_left _ hocc)
          · exact Or.inr hle
      · rw [List.map_cons, List.nodup_cons] at hnd
        push_neg at hnd
        by_cases hmem : t.pixel ∈ rest.map SerialTrap.pixel
        · rcases List.mem_map.mp hmem with ⟨t2, ht2, hpix⟩
          refine Or.inl ⟨t2, ht2, Or.inl ?_⟩
          rw [hpix]
          exact List.mem_append_right _ (List.mem_singleton_self _)
        · exact Or.inr (hnd hmem)
    obtain ⟨e, he⟩ := ih (occ ++ [t.pixel]) (trapWrite a t) hrec
    exact ⟨e, by simp [trapLoop, h1, h2, h3, he]⟩

/-- C6 counterexample: registering a second trap at the already occupied
column 2 returns normally from `add_trap` (the resulting state simply
holds both traps); no configuration error is raised at registration
time. -/
theorem C6_claim_false :
    (exSegTrap.add_trap exTrap).map SegmentSimulator.serial_traps
      = Except.ok (some [exTrap, exTrap]) := rfl

/-- C6 (corrected): `add_trap` itself performs no validation and always
succeeds; a duplicate trap column or a column at or beyond
`nx + prescan_width` is instead rejected with an exception only when
`make_trap_arrays` runs (which `simulate_readout` invokes), i.e. lazily
at readout rather than eagerly at registration. -/
theorem C6_lazy_validation (s : SegmentSimulator) (ts : List SerialTrap)
    (hts : s.serial_traps = some ts)
    (hbad : ¬ (ts.map SerialTrap.pixel).Nodup ∨
      ∃ t ∈ ts, s.nx + s.prescan_width ≤ t.pixel) :
    (∀ (s3 : SegmentSimulator) (t3 : SerialTrap),
      ∃ s4, s3.add_trap t3 = Except.ok s4) ∧
    ∃ e, s.make_trap_arrays = Except.error e := by
  constructor
  · intro s3 t3
    cases h : s3.serial_traps <;> simp [SegmentSimulator.add_trap, h]
  · have hpre : (∃ t ∈ ts, t.pixel ∈ ([] : List ℕ) ∨
        s.nx + s.prescan_width ≤ t.pixel) ∨
        ¬ (ts.map SerialTrap.pixel).Nodup := by
      rcases hbad with hnd | ⟨t, ht, hle⟩
      · exact Or.inr hnd
      · exact Or.inl ⟨t, ht, Or.inr hle⟩
    have := trapLoop_error_of_bad (s.nx + s.prescan_width) ts [] trapZero hpre
    simpa [SegmentSimulator.make_trap_arrays, hts] using this

/-- With no traps, zero cti and drift disabled, after `k` loop steps the
free charge is the initial charge shifted left by `k` columns, and each
already clocked output column `c < k` of each image row holds the
initial charge of register column `c` on top of the initial output
array. -/
lemma readoutLoop_no_trap_cti0 (w ny : ℕ) (oa : OutputAmplifier)
    (img0 seg : ℕ → ℕ → ℝ) (drift0 : ℕ → ℝ)
    (hseg : ∀ r c, w ≤ c → seg r c = 0) (k : ℕ) :
    (readoutLoop none 0 w ny oa false k ⟨img0, seg, fun _ _ => 0, drift0⟩).free
        = (fun r c => if c + k < w then seg r (c + k) else 0) ∧
    (readoutLoop none 0 w ny oa false k ⟨img0, seg, fun _ _ => 0, drift0⟩).image
        = (fun r c => img0 r c +
            if c < k ∧ r < ny then (if c < w then seg r c else 0) else 0) := by
  induction k with
  | zero =>
    constructor
    · funext r c
      by_cases h : c < w
      · simp [readoutLoop, h]
      · simp [readoutLoop, h, hseg r c (by omega)]
    · funext r c
      simp [readoutLoop]
  | succ k ih =>
    obtain ⟨ihf, ihi⟩ := ih
    constructor
    · funext r c
      simp only [readoutLoop, readoutStep, transferStep, ihf]
      by_cases h : c + (k + 1) < w
      · have h1 : c + 1 < w := by omega
        have h2 : c + 1 + k < w := by omega
        have h3 : c + 1 + k = c + (k + 1) := by omega
        simp [h, h1, h2, h3]
      · by_cases h1 : c + 1 < w
        · have h2 : ¬ (c + 1 + k < w) := by omega
          simp [h, h1, h2]
        · simp [h, h1]
    · funext r c
      simp only [readoutLoop, readoutStep, transferStep, ihf, ihi]
      by_cases hr : r < ny
      · by_cases hck : c = k
        · subst hck
          by_cases hw : c < w
          · simp [hr, hw]
          · simp [hr, hw, hseg r c (by omega)]
        · have h5 : c < k ↔ c < k + 1 := by omega
          simp [hr, hck, h5]
      · simp [hr]

/-- Summing the `__init__` charge field over one full row of the register
recovers the row sum of the supplied exposure array (the prescan columns
are zero). -/
lemma sum_init_row (nx pw ny : ℕ) (imarr : ℕ → ℕ → ℝ) (r : ℕ) (hr : r < ny) :
    (Finset.range (nx + pw)).sum
        (fun c => if r < ny ∧ pw ≤ c ∧ c < nx + pw then imarr r (c - pw) else 0)
      = (Finset.range nx).sum (fun c => imarr r c) := by
  rw [Finset.range_eq_Ico,
    ← Finset.sum_Ico_consecutive _ (Nat.zero_le pw) (by omega : pw ≤ nx + pw)]
  have h1 : (Finset.Ico 0 pw).sum
      (fun c => if r < ny ∧ pw ≤ c ∧ c < nx + pw then imarr r (c - pw) else 0) = 0 := by
    apply Finset.sum_eq_zero
    intro c hc
    rw [Finset.mem_Ico] at hc
    exact if_neg (by omega)
  rw [h1, zero_add, Finset.sum_Ico_eq_sum_range]
  have h2 : nx + pw - pw = nx := by omega
  rw [h2, ← Finset.range_eq_Ico]
  apply Finset.sum_congr rfl
  intro j hj
  rw [Finset.mem_range] at hj
  rw [if_pos ⟨hr, by omega, by omega⟩]
  congr 1
  omega

/-- The constructor with `traps=None` yields the base state verbatim. -/
lemma init_none_eq (ny nx : ℕ) (imarr : ℕ → ℕ → ℝ) (pw : ℕ)
    (oa : OutputAmplifier) (cti : ℝ) :
    SegmentSimulator.init ny nx imarr pw oa cti none =
      { prescan_width := pw, ny := ny, nx := nx,
        segarr := fun r c =>
          if r < ny ∧ pw ≤ c ∧ c < nx + pw then imarr r (c - pw) else 0,
        output_amplifier := oa, cti := cti,
        serial_traps := none, do_trapping := false } := rfl

/-- C2 (confirmed): with no traps, cti = 0, gain 1, zero offset, zero
noise standard deviation and bias drift disabled, the readout succeeds
and, for every exposure array and every row of it, the summed output row
equals the summed input row exactly. -/
theorem C2_charge_conservation (ny nx pw so po : ℕ) (imarr : ℕ → ℕ → ℝ)
    (ω : ℕ → ℕ → ℝ) (oa : OutputAmplifier) (r : ℕ)
    (hr : r < ny) (hg : oa.gain = 1) (ho : oa.offset = 0) (hn : oa.noise = 0) :
    ∃ g, (SegmentSimulator.init ny nx imarr pw oa 0 none).simulate_readout
          so po false ω
        = (Except.ok g, SegmentSimulator.init ny nx imarr pw oa 0 none) ∧
      (Finset.range (nx + pw + so)).sum (fun i => g r i)
        = (Finset.range nx).sum (fun c => imarr r c) := by
  refine ⟨readoutResult (SegmentSimulator.init ny nx imarr pw oa 0 none)
    so po false none ω, rfl, ?_⟩
  have hseg : ∀ r2 c, nx + pw ≤ c →
      (fun r2 c => if r2 < ny ∧ pw ≤ c ∧ c < nx + pw then imarr r2 (c - pw) else 0)
        r2 c = 0 := by
    intro r2 c hc
    exact if_neg (by omega)
  have hloop := readoutLoop_no_trap_cti0 (nx + pw) ny oa
      (initImage oa (ny + po) (nx + pw + so) ω)
      (fun r2 c => if r2 < ny ∧ pw ≤ c ∧ c < nx + pw then imarr r2 (c - pw) else 0)
      (fun _ => 0) hseg (nx + pw + so)
  have hval : ∀ i, readoutResult (SegmentSimulator.init ny nx imarr pw oa 0 none)
      so po false none ω r i
      = (readoutLoop none 0 (nx + pw) ny oa false (nx + pw + so)
          ⟨initImage oa (ny + po) (nx + pw + so) ω,
           fun r2 c => if r2 < ny ∧ pw ≤ c ∧ c < nx + pw then imarr r2 (c - pw) else 0,
           fun _ _ => 0, fun _ => 0⟩).image r i / oa.gain := fun i => rfl
  have himg : ∀ r2 c, initImage oa (ny + po) (nx + pw + so) ω r2 c = 0 := by
    intro r2 c
    simp [initImage, ho, hn]
  have hterm : ∀ i ∈ Finset.range (nx + pw + so),
      readoutResult (SegmentSimulator.init ny nx imarr pw oa 0 none)
          so po false none ω r i
        = (if i < nx + pw then
            (if r < ny ∧ pw ≤ i ∧ i < nx + pw then imarr r (i - pw) else 0)
          else 0) := by
    intro i hi
    rw [Finset.mem_range] at hi
    rw [hval i, hloop.2, hg, div_one]
    simp only [himg, zero_add]
    rw [if_pos ⟨hi, hr⟩]
  rw [Finset.sum_congr rfl hterm]
  rw [← Finset.sum_subset (Finset.range_subset.2 (by omega : nx + pw ≤ nx + pw + so))
    (fun x _ hx => if_neg (by rw [Finset.mem_range] at hx; omega))]
  have hinner : ∀ i ∈ Finset.range (nx + pw),
      (if i < nx + pw then
        (if r < ny ∧ pw ≤ i ∧ i < nx + pw then imarr r (i - pw) else 0)
      else 0)
        = (if r < ny ∧ pw ≤ i ∧ i < nx + pw then imarr r (i - pw) else 0) := by
    intro i hi
    rw [Finset.mem_range] at hi
    rw [if_pos hi]
  rw [Finset.sum_congr rfl hinner]
  exact sum_init_row nx pw ny imarr r hr

/-- C2 witness: charge conservation applied to a concrete 1×2 exposure of
5 and 7 electrons with prescan width 1 and one overscan column. -/
theorem C2_charge_conservation_witness :
    ∃ g, (SegmentSimulator.init 1 2 (fun _ c => if c = 0 then 5 else 7) 1 exOa
          0 none).simulate_readout 1 0 false (fun _ _ => 0)
        = (Except.ok g,
           SegmentSimulator.init 1 2 (fun _ c => if c = 0 then 5 else 7) 1 exOa 0 none) ∧
      (Finset.range (2 + 1 + 1)).sum (fun i => g 0 i)
        = (Finset.range 2).sum (fun c => (fun _ c => if c = 0 then (5:ℝ) else 7) 0 c) :=
  C2_charge_conservation 1 2 1 1 0 (fun _ c => if c = 0 then 5 else 7)
    (fun _ _ => 0) exOa 0 (by norm_num) rfl rfl rfl

/-- The parameter bounds the specification demands of one trap:
`0 ≤ scaling ≤ 1`, `threshold ≥ 0`, `capacity ≥ 0`, `emission_time > 0`. -/
def TrapGood (t : SerialTrap) : Prop :=
  0 ≤ t.scaling ∧ t.scaling ≤ 1 ∧ 0 ≤ t.threshold ∧ 0 ≤ t.size ∧
    0 < t.emission_time

/-- Pointwise parameter bounds on the trap arrays (satisfied both at trap
columns with good traps and at trap-free columns, where all entries are
zero). -/
def TrapArraysGood (ta : TrapArrays) : Prop :=
  ∀ r c, 0 ≤ ta.scaling r c ∧ ta.scaling r c ≤ 1 ∧ 0 ≤ ta.threshold r c ∧
    0 ≤ ta.size r c ∧ 0 ≤ ta.emission_time r c

/-- The physical invariant of the transfer loop: free charge is
everywhere non-negative and each trapped-charge entry lies within
`[0, capacity]`. -/
def ROInv (ta : TrapArrays) (st : ROState) : Prop :=
  (∀ r c, 0 ≤ st.free r c) ∧
    (∀ r c, 0 ≤ st.trapped r c ∧ st.trapped r c ≤ ta.size r c)

lemma captureStep_inv (ta : TrapArrays) (hta : TrapArraysGood ta)
    (st : ROState) (h : ROInv ta st) : ROInv ta (captureStep ta st) := by
  obtain ⟨hf, ht⟩ := h
  refine ⟨fun r c => ?_, fun r c => ?_⟩
  · obtain ⟨hs0, hs1, hth, hsz, _⟩ := hta r c
    obtain ⟨ht0, hts⟩ := ht r c
    have hfr := hf r c
    simp only [captureStep, capturedCharge, npClip]
    rcases le_total ((st.free r c - ta.threshold r c) * ta.scaling r c)
        (st.trapped r c) with hx | hx
    · rw [max_eq_right hx, min_eq_left hts]
      linarith
    · rw [max_eq_left hx]
      have hmin := min_le_left ((st.free r c - ta.threshold r c) * ta.scaling r c)
        (ta.size r c)
      have hxle : (st.free r c - ta.threshold r c) * ta.scaling r c ≤ st.free r c := by
        nlinarith [mul_nonneg hth hs0, mul_nonneg hfr (sub_nonneg.2 hs1)]
      linarith
  · obtain ⟨hs0, hs1, hth, hsz, _⟩ := hta r c
    obtain ⟨ht0, hts⟩ := ht r c
    simp only [captureStep, capturedCharge, npClip]
    have h1 : st.trapped r c ≤
        min (max ((st.free r c - ta.threshold r c) * ta.scaling r c)
          (st.trapped r c)) (ta.size r c) :=
      le_min (le_max_right _ _) hts
    have h2 := min_le_right
      (max ((st.free r c - ta.threshold r c) * ta.scaling r c) (st.trapped r c))
      (ta.size r c)
    exact ⟨by linarith, by linarith⟩

lemma transferStep_inv (ta : TrapArrays) (cti : ℝ) (w ny : ℕ)
    (oa : OutputAmplifier) (dbd : Bool) (i : ℕ)
    (hc0 : 0 ≤ cti) (hc1 : cti ≤ 1) (st : ROState) (h : ROInv ta st) :
    ROInv ta (transferStep cti w ny oa dbd i st) := by
  obtain ⟨hf, ht⟩ := h
  refine ⟨fun r c => ?_, fun r c => ht r c⟩
  simp only [transferStep]
  have h1 : 0 ≤ st.free r c * cti := mul_nonneg (hf r c) hc0
  by_cases hw : c + 1 < w
  · rw [if_pos hw]
    have h2 : 0 ≤ st.free r (c + 1) * (1 - cti) :=
      mul_nonneg (hf r (c + 1)) (by linarith)
    linarith
  · rw [if_neg hw]
    linarith

lemma releaseFactor_mem (em : ℝ) (h : 0 ≤ em) :
    0 ≤ 1 - Real.exp (-1 / em) ∧ 1 - Real.exp (-1 / em) ≤ 1 := by
  constructor
  · have hx : -1 / em ≤ 0 := by
      rcases eq_or_lt_of_le h with he | he
      · simp [← he]
      · exact le_of_lt (div_neg_of_neg_of_pos (by norm_num) he)
    have h2 : Real.exp (-1 / em) ≤ Real.exp 0 := Real.exp_le_exp.mpr hx
    rw [Real.exp_zero] at h2
    linarith
  · have := Real.exp_pos (-1 / em)
    linarith

lemma releaseStep_inv (ta : TrapArrays) (hta : TrapArraysGood ta)
    (st : ROState) (h : ROInv ta st) : ROInv ta (releaseStep ta st) := by
  obtain ⟨hf, ht⟩ := h
  refine ⟨fun r c => ?_, fun r c => ?_⟩
  · obtain ⟨_, _, _, _, hem⟩ := hta r c
    obtain ⟨ht0, _⟩ := ht r c
    obtain ⟨hf0, hf1⟩ := releaseFactor_mem (ta.emission_time r c) hem
    simp only [releaseStep]
    have h2 := mul_nonneg ht0 hf0
    have h3 := hf r c
    linarith
  · obtain ⟨_, _, _, _, hem⟩ := hta r c
    obtain ⟨ht0, hts⟩ := ht r c
    obtain ⟨hf0, hf1⟩ := releaseFactor_mem (ta.emission_time r c) hem
    simp only [releaseStep]
    constructor
    · nlinarith [mul_nonneg ht0 (sub_nonneg.2 hf1)]
    · have h2 := mul_nonneg ht0 hf0
      linarith

lemma readoutStep_inv (ta : TrapArrays) (hta : TrapArraysGood ta) (cti : ℝ)
    (hc0 : 0 ≤ cti) (hc1 : cti ≤ 1) (w ny : ℕ) (oa : OutputAmplifier)
    (dbd : Bool) (i : ℕ) (st : ROState) (h : ROInv ta st) :
    ROInv ta (readoutStep (some ta) cti w ny oa dbd i st) :=
  releaseStep_inv ta hta _
    (transferStep_inv ta cti w ny oa dbd i hc0 hc1 _ (captureStep_inv ta hta st h))

lemma readoutLoop_inv (ta : TrapArrays) (hta : TrapArraysGood ta) (cti : ℝ)
    (hc0 : 0 ≤ cti) (hc1 : cti ≤ 1) (w ny : ℕ) (oa : OutputAmplifier)
    (dbd : Bool) (k : ℕ) (st : ROState) (h : ROInv ta st) :
    ROInv ta (readoutLoop (some ta) cti w ny oa dbd k st) := by
  induction k with
  | zero => exact h
  | succ k ih => exact readoutStep_inv ta hta cti hc0 hc1 w ny oa dbd k _ ih

lemma trapWrite_good (a : TrapArrays) (t : SerialTrap) (ha : TrapArraysGood a)
    (ht : TrapGood t) : TrapArraysGood (trapWrite a t) := by
  intro r c
  obtain ⟨h1, h2, h3, h4, h5⟩ := ht
  obtain ⟨g1, g2, g3, g4, g5⟩ := ha r c
  simp only [trapWrite]
  by_cases hc : c = t.pixel
  · rw [if_pos hc, if_pos hc, if_pos hc, if_pos hc]
    exact ⟨h1, h2, h3, h4, le_of_lt h5⟩
  · rw [if_neg hc, if_neg hc, if_neg hc, if_neg hc]
    exact ⟨g1, g2, g3, g4, g5⟩

lemma trapZero_good : TrapArraysGood trapZero := by
  intro r c
  refine ⟨le_refl 0, zero_le_one, le_refl 0, le_refl 0, le_refl 0⟩

lemma trapLoop_good (w : ℕ) (ts : List SerialTrap) :
    ∀ (occ : List ℕ) (a a2 : TrapArrays), (∀ t ∈ ts, TrapGood t) →
      TrapArraysGood a → trapLoop w ts occ a = Except.ok a2 →
      TrapArraysGood a2 := by
  induction ts with
  | nil =>
    intro occ a a2 _ ha heq
    simp only [trapLoop] at heq
    injection heq with h
    rw [← h]
    exact ha
  | cons t rest ih =>
    intro occ a a2 hts ha heq
    simp only [trapLoop] at heq
    by_cases h1 : t.pixel ∈ occ
    · rw [if_pos h1] at heq
      cases heq
    rw [if_neg h1] at heq
    by_cases h2 : w < t.pixel
    · rw [if_pos h2] at heq
      cases heq
    rw [if_neg h2] at heq
    by_cases h3 : t.pixel = w
    · rw [if_pos h3] at heq
      cases heq
    rw [if_neg h3] at heq
    exact ih _ _ _ (fun t2 ht2 => hts t2 (List.mem_cons_of_mem t ht2))
      (trapWrite_good a t ha (hts t (List.mem_cons_self t rest))) heq

/-- C4 (confirmed): with `0 ≤ scaling ≤ 1`, `threshold ≥ 0`,
`capacity ≥ 0`, `emission_time > 0` and `0 ≤ cti < 1`, starting from a
non-negative exposure, the capture, transfer and release sub-steps each
preserve non-negative free charge and per-row trap occupancy within
`[0, capacity]`; the loop of `simulate_readout` therefore keeps the
invariant at every step count, and trap arrays built by
`make_trap_arrays` from good traps satisfy the pointwise bounds the
invariant is stated over. -/
theorem C4_readout_invariants (ta : TrapArrays) (cti : ℝ) (w ny : ℕ)
    (oa : OutputAmplifier) (dbd : Bool) (hta : TrapArraysGood ta)
    (hc0 : 0 ≤ cti) (hc1 : cti < 1) :
    (∀ st, ROInv ta st → ROInv ta (captureStep ta st)) ∧
    (∀ st i, ROInv ta st → ROInv ta (transferStep cti w ny oa dbd i st)) ∧
    (∀ st, ROInv ta st → ROInv ta (releaseStep ta st)) ∧
    (∀ (s : SegmentSimulator) (so po : ℕ) (ω : ℕ → ℕ → ℝ),
      (∀ r c, 0 ≤ s.segarr r c) → 0 ≤ s.cti → s.cti < 1 → ∀ k,
      ROInv ta (readoutLoop (some ta) s.cti (s.nx + s.prescan_width) s.ny
        s.output_amplifier dbd k
        ⟨initImage s.output_amplifier (s.ny + po) (s.nx + s.prescan_width + so) ω,
         s.segarr, fun _ _ => 0, fun _ => 0⟩)) ∧
    (∀ ts a2, (∀ t ∈ ts, TrapGood t) →
      trapLoop w ts [] trapZero = Except.ok a2 → TrapArraysGood a2) := by
  refine ⟨fun st h => captureStep_inv ta hta st h,
    fun st i h => transferStep_inv ta cti w ny oa dbd i hc0 (le_of_lt hc1) st h,
    fun st h => releaseStep_inv ta hta st h,
    fun s so po ω hseg hs0 hs1 k => ?_,
    fun ts a2 hts heq => trapLoop_good w ts [] trapZero a2 hts trapZero_good heq⟩
  exact readoutLoop_inv ta hta s.cti hs0 (le_of_lt hs1)
    (s.nx + s.prescan_width) s.ny s.output_amplifier dbd k _
    ⟨hseg, fun r c => ⟨le_refl 0, (hta r c).2.2.2.1⟩⟩

/-- C4 witness: the loop-invariant conjunct of the invariants theorem
applied to the concrete trap-free segment `exSegTrap` (cti 0,
non-negative exposure) with the zero trap arrays, after 3 steps. -/
theorem C4_readout_invariants_witness :
    ROInv trapZero (readoutLoop (some trapZero) exSegTrap.cti
      (exSegTrap.nx + exSegTrap.prescan_width) exSegTrap.ny
      exSegTrap.output_amplifier false 3
      ⟨initImage exSegTrap.output_amplifier (exSegTrap.ny + 0)
        (exSegTrap.nx + exSegTrap.prescan_width + 2) (fun _ _ => 0),
       exSegTrap.segarr, fun _ _ => 0, fun _ => 0⟩) :=
  (C4_readout_invariants trapZero 0 2 1 exOa false trapZero_good (le_refl 0)
    (by norm_num)).2.2.2.1 exSegTrap 2 0 (fun _ _ => 0)
    (fun r c => le_refl 0) (le_refl 0) (by norm_num [exSegTrap]) 3

/-- The first `prescan_width` columns of the stored charge field are
identically zero. -/
def PrescanZero (s : SegmentSimulator) : Prop :=
  ∀ r c, c < s.prescan_width → s.segarr r c = 0

lemma addTrapState_fields (s : SegmentSimulator) (t : SerialTrap) :
    (addTrapState s t).segarr = s.segarr ∧
    (addTrapState s t).prescan_width = s.prescan_width := by
  cases h : s.serial_traps <;> simp [addTrapState, SegmentSimulator.add_trap, h]

lemma foldl_addTrapState_fields (ts : List SerialTrap) :
    ∀ s : SegmentSimulator, (ts.foldl addTrapState s).segarr = s.segarr ∧
      (ts.foldl addTrapState s).prescan_width = s.prescan_width := by
  induction ts with
  | nil => intro s; exact ⟨rfl, rfl⟩
  | cons t rest ih =>
    intro s
    rw [List.foldl_cons]
    obtain ⟨h1, h2⟩ := ih (addTrapState s t)
    obtain ⟨g1, g2⟩ := addTrapState_fields s t
    exact ⟨by rw [h1, g1], by rw [h2, g2]⟩

lemma applyOp_prescan (s : SegmentSimulator) (op : ExposureOp) :
    (applyOp s op).prescan_width = s.prescan_width ∧
    (PrescanZero s → PrescanZero (applyOp s op)) := by
  cases op with
  | flat sig n ωp =>
    refine ⟨rfl, fun h r c hc => ?_⟩
    have hc2 : c < s.prescan_width := hc
    simp only [applyOp, SegmentSimulator.flatfield_exp]
    rw [if_neg (by omega), h r c hc2, add_zero]
  | ramp l =>
    by_cases hlen : l.length ≠ s.ny
    · have he : applyOp s (ExposureOp.ramp l) = s := by
        simp [applyOp, SegmentSimulator.ramp_exp, hlen]
      rw [he]
      exact ⟨rfl, fun h => h⟩
    · have hpw : (applyOp s (ExposureOp.ramp l)).prescan_width = s.prescan_width := by
        simp [applyOp, SegmentSimulator.ramp_exp, hlen]
      have hsg : ∀ r c, (applyOp s (ExposureOp.ramp l)).segarr r c
          = s.segarr r c +
            (if r < s.ny ∧ s.prescan_width ≤ c ∧ c < s.prescan_width + s.nx then
              l.getD r 0
            else 0) := by
        intro r c
        simp [applyOp, SegmentSimulator.ramp_exp, hlen]
      refine ⟨hpw, fun h r c hc => ?_⟩
      have hc2 : c < s.prescan_width := by rw [hpw] at hc; exact hc
      rw [hsg r c, if_neg (by omega), h r c hc2, add_zero]
  | fe55 hs =>
    have key : ∀ (hits : List Fe55Hit) (s2 : SegmentSimulator),
        (s2.fe55_exp hits).prescan_width = s2.prescan_width ∧
        (PrescanZero s2 → PrescanZero (s2.fe55_exp hits)) := by
      intro hits
      induction hits with
      | nil => intro s2; exact ⟨rfl, fun h => h⟩
      | cons hit rest ih =>
        intro s2
        have he : s2.fe55_exp (hit :: rest) = (s2.fe55_hit hit).fe55_exp rest := rfl
        rw [he]
        obtain ⟨h1, h2⟩ := ih (s2.fe55_hit hit)
        have hit1 : (s2.fe55_hit hit).prescan_width = s2.prescan_width := rfl
        have hit2 : PrescanZero s2 → PrescanZero (s2.fe55_hit hit) := by
          intro h r c hc
          have hc2 : c < s2.prescan_width := hc
          have hx0 : s2.prescan_width ≤
              randint s2.prescan_width (s2.nx + s2.prescan_width - hit.sx) hit.ωx :=
            Nat.le_add_right _ _
          simp only [SegmentSimulator.fe55_hit]
          rw [if_neg (by omega), h r c hc2, add_zero]
        exact ⟨by rw [h1, hit1], fun h => h2 (hit2 h)⟩
    exact key hs s

lemma applyOps_prescan (ops : List ExposureOp) :
    ∀ s : SegmentSimulator, (applyOps s ops).prescan_width = s.prescan_width ∧
      (PrescanZero s → PrescanZero (applyOps s ops)) := by
  induction ops with
  | nil => intro s; exact ⟨rfl, fun h => h⟩
  | cons op rest ih =>
    intro s
    have he : applyOps s (op :: rest) = applyOps (applyOp s op) rest := rfl
    rw [he]
    obtain ⟨h1, h2⟩ := ih (applyOp s op)
    obtain ⟨g1, g2⟩ := applyOp_prescan s op
    exact ⟨by rw [h1, g1], fun h => h2 (g2 h)⟩

/-- C10 (confirmed): construction zero-pads the prescan columns, and each
exposure operation (flat field, ramp, Fe55 hits) writes only at columns
at or beyond `prescan_width` — the Fe55 column origin drawn by
`np.random.randint(prescan_width, ...)` is never below `prescan_width` —
so after construction and any sequence of exposure calls the prescan
columns of `segarr` are exactly zero. -/
theorem C10_prescan_zero :
    (∀ ny nx imarr pw oa cti traps,
      PrescanZero (SegmentSimulator.init ny nx imarr pw oa cti traps)) ∧
    (∀ s op, PrescanZero s → PrescanZero (applyOp s op)) ∧
    (∀ s ops, PrescanZero s → PrescanZero (applyOps s ops)) ∧
    (∀ pw hi ωx, pw ≤ randint pw hi ωx) := by
  refine ⟨?_, fun s op h => (applyOp_prescan s op).2 h,
    fun s ops h => (applyOps_prescan ops s).2 h,
    fun pw hi ωx => Nat.le_add_right _ _⟩
  intro ny nx imarr pw oa cti traps
  cases traps with
  | none =>
    intro r c hc
    have hc2 : c < pw := hc
    show (if r < ny ∧ pw ≤ c ∧ c < nx + pw then imarr r (c - pw) else 0) = 0
    exact if_neg (by omega)
  | some ts =>
    have he : SegmentSimulator.init ny nx imarr pw oa cti (some ts)
        = ts.foldl addTrapState (SegmentSimulator.init ny nx imarr pw oa cti none) := rfl
    intro r c hc
    rw [he] at hc ⊢
    rw [(foldl_addTrapState_fields ts _).2] at hc
    rw [(foldl_addTrapState_fields ts _).1]
    have hc2 : c < pw := hc
    show (if r < ny ∧ pw ≤ c ∧ c < nx + pw then imarr r (c - pw) else 0) = 0
    exact if_neg (by omega)

/-- C10 witness: the invariant theorem applied to a concrete construction
followed by a concrete flat-field and Fe55 exposure sequence. -/
theorem C10_prescan_zero_witness :
    PrescanZero (applyOps (SegmentSimulator.init 2 3 (fun _ _ => 7) 2 exOa 0 none)
      [ExposureOp.flat 5 false (fun _ _ => 0),
       ExposureOp.fe55 [⟨fun _ _ => 1, 1, 1, 0, 0⟩]]) :=
  C10_prescan_zero.2.2.1 _ _
    (C10_prescan_zero.1 2 3 (fun _ _ => 7) 2 exOa 0 none)

/-- C6 witness: the lazy-validation theorem applied to the concrete
duplicate-column state `exSegDup`. -/
theorem C6_lazy_validation_witness :
    (∀ (s3 : SegmentSimulator) (t3 : SerialTrap),
      ∃ s4, s3.add_trap t3 = Except.ok s4) ∧
    ∃ e, exSegDup.make_trap_arrays = Except.error e :=
  C6_lazy_validation exSegDup [exTrap, exTrap] rfl
    (Or.inl (by simp [exTrap]))

end Ctisim
